import Mathlib

/-!
Shallow embedding of `src/frontend/static/js/app.js`, the single source file
of the geo-ai-visibility dashboard widget.  JavaScript values that the code
actually inspects (strings, numbers, null/undefined) are modelled by `JsVal`;
JS numbers are modelled by `Rat` (the call sites exercised here only pass
finite decimal values, never NaN/Infinity); JSON-parsed payload fields that
may be absent or null are modelled by `Option`.  DOM side effects (writes to
element text, class toggles, issued fetch requests, installed interval
timers) are modelled by explicit result records listing what the function
wrote/issued.
-/

namespace GeoAI

/-- A JavaScript value, restricted to the shapes `app.js` actually inspects. -/
inductive JsVal where
  | vNull
  | vUndefined
  | vBool (b : Bool)
  | vNum (q : Rat)
  | vStr (s : String)
deriving DecidableEq, Repr

/-- The test `typeof v === "string"`. -/
def JsVal.isString : JsVal → Bool
  | .vStr _ => true
  | _ => false

/-- The whitespace characters removed by JavaScript `String.prototype.trim`
(the ASCII ones plus NBSP; the exotic Unicode space separators the page never
produces are omitted). -/
def jsWhitespace (c : Char) : Bool :=
  c = ' ' || c = '\t' || c = '\n' || c = '\r' || c = '\x0b' || c = '\x0c' || c = ' '

/-- Remove trailing characters satisfying `p` (the tail half of JS `trim`). -/
def dropTrail (p : Char → Bool) : List Char → List Char
  | [] => []
  | c :: rest =>
    match dropTrail p rest with
    | [] => if p c then [] else [c]
    | r => c :: r

/-- JavaScript `s.trim()`: strip leading and trailing whitespace. -/
def jsTrim (s : String) : String :=
  ⟨dropTrail jsWhitespace (s.data.dropWhile jsWhitespace)⟩

/-- Splitting on the regex `/\r?\n/` (app.js line 217): each LF ends a
segment, and a CR immediately before such an LF is consumed with it; a lone
CR stays in its segment.  `acc` holds the current segment reversed. -/
def splitNewlines : List Char → List Char → List (List Char)
  | [], acc => [acc.reverse]
  | '\r' :: '\n' :: rest, acc => acc.reverse :: splitNewlines rest []
  | '\n' :: rest, acc => acc.reverse :: splitNewlines rest []
  | c :: rest, acc => splitNewlines rest (c :: acc)

/-- The function `parseTopics` (app.js lines 214-220).  The guard
`if (!topicsText || typeof topicsText !== "string") return []` sends every
non-string (and the falsy empty string) to `[]`; otherwise the text is split
on `/\r?\n/`, each piece trimmed, and empty pieces dropped. -/
def parseTopics (topicsText : JsVal) : List String :=
  match topicsText with
  | .vStr s =>
    if s = "" then []
    else ((splitNewlines s.data []).map (fun cs => jsTrim ⟨cs⟩)).filter (fun t => 0 < t.length)
  | _ => []

/-- One `<option>` element of the trend-topic dropdown. -/
structure DropdownOption where
  value : String
  text : String
deriving DecidableEq, Repr

/-- The function `populateTopicDropdown` (app.js lines 222-237): the select is cleared,
an "All Topics" option with empty value is appended, then one option per
topic. -/
def populateTopicDropdown (topics : List String) : List DropdownOption :=
  { value := "", text := "All Topics" } :: topics.map (fun t => { value := t, text := t })

/-- One entry of the array-form trend payload: `{name, values[]}`. -/
structure SeriesItem where
  name : String
  values : List Rat
deriving DecidableEq, Repr

/-- The fixed 10-colour palette `chartColors` (app.js lines 59-70). -/
def chartColors : List String :=
  ["#2563eb", "#22c55e", "#a855f7", "#f97316", "#0ea5e9",
   "#64748b", "#16a34a", "#facc15", "#ec4899", "#94a3b8"]

/-- One Chart.js dataset record as built by `buildDatasetsFromSeries`. -/
structure Dataset where
  label : String
  data : List Rat
  borderColor : String
  backgroundColor : String
  tension : Rat
  pointRadius : Rat
  fill : Bool
  borderWidth : Nat
deriving DecidableEq, Repr

/-- The ordering pass of `buildDatasetsFromSeries` (app.js lines 246-254) on
the array form.  The JS code looks up `series.find(s => s.name === brandName)`
(guarded by `if (brandName)`, i.e. a non-empty name) and then pushes every
element not already in `ordered`, where `includes` compares object
references.  The arrays come from `resp.json()`, so distinct positions hold
distinct objects and the reference test skips exactly the element `find`
returned — the first element whose name matches — which is `List.eraseP`. -/
def orderedSeries (series : List SeriesItem) (brandName : String) : List SeriesItem :=
  if brandName ≠ "" then
    match series.find? (fun s => s.name == brandName) with
    | some main => main :: series.eraseP (fun s => s.name == brandName)
    | none => series
  else series

/-- The function `buildDatasetsFromSeries` (app.js lines 241-268, array form): order the
series focal-brand-first, keep at most 10 (`ordered.slice(0, 10)`), and map
each to a dataset record coloured by its index in the limited list. -/
def buildDatasetsFromSeries (series : List SeriesItem) (brandName : String) : List Dataset :=
  let limited := (orderedSeries series brandName).take 10
  limited.enum.map (fun p =>
    { label := p.2.name
      data := p.2.values
      borderColor := chartColors.getD (p.1 % chartColors.length) ""
      backgroundColor := chartColors.getD (p.1 % chartColors.length) ""
      tension := 35 / 100
      pointRadius := 3 / 2
      fill := false
      borderWidth := 2 })

/-- Modelled from the spec's words, for comparison with the code: the chart
label list "places the focal brand's series first if it is present in the
source, followed by all remaining series in source order, deduplicated",
truncated to at most 10. -/
def specChartLabels (names : List String) (brand : String) : List String :=
  (if brand ∈ names then brand :: names.eraseP (fun n => n == brand) else names).take 10

/-- The label sequence computed by `orderedSeries`, as a function of the name
sequence alone (used to state order stability across the two metrics). -/
def orderedNames (names : List String) (brand : String) : List String :=
  if brand ≠ "" then
    match names.find? (fun n => n == brand) with
    | some n => n :: names.eraseP (fun m => m == brand)
    | none => names
  else names

/-- The browser's interval-timer registry: the ids of currently installed
interval timers, and the next fresh id `setInterval` will hand out. -/
structure TimerSys where
  active : List Nat
  nextId : Nat
deriving DecidableEq, Repr

/-- The browser call `setInterval(...)`: install a fresh timer, return its id. -/
def setIntervalSys (sys : TimerSys) : Nat × TimerSys :=
  (sys.nextId, { active := sys.active ++ [sys.nextId], nextId := sys.nextId + 1 })

/-- The browser call `clearInterval(id)`: remove the timer with that id, if installed. -/
def clearIntervalSys (sys : TimerSys) (id : Nat) : TimerSys :=
  { sys with active := sys.active.erase id }

/-- The progress-animation module state (app.js lines 79-100): the timer
registry, the module variable `progressInterval` (id of the owned timer, or
null), and `visualProgress`. -/
structure ProgressState where
  sys : TimerSys
  progressInterval : Option Nat
  visualProgress : Int
deriving DecidableEq, Repr

/-- The function `stopProgressAnimation` (app.js lines 95-100): if `progressInterval` is
non-null, clear it and null the variable. -/
def stopProgressAnimation (st : ProgressState) : ProgressState :=
  match st.progressInterval with
  | some id => { st with sys := clearIntervalSys st.sys id, progressInterval := none }
  | none => st

/-- The function `startProgressAnimation` (app.js lines 83-93): first
`stopProgressAnimation()`, then reset `visualProgress` to 0 and install a
fresh interval timer, remembering its id in `progressInterval`. -/
def startProgressAnimation (st : ProgressState) : ProgressState :=
  let st1 := stopProgressAnimation st
  let fresh := setIntervalSys st1.sys
  { sys := fresh.2, progressInterval := some fresh.1, visualProgress := 0 }

/-- The body of the interval callback (app.js lines 86-92), run once when one
installed timer fires: below 90 the visual progress is incremented by one. -/
def intervalTickOnce (st : ProgressState) : ProgressState :=
  if st.visualProgress < 90 then { st with visualProgress := st.visualProgress + 1 } else st

/-- One timer period of the event loop: every installed interval timer fires
once, each firing running the module's callback (the only callback the file
installs).  Duplicate live timers would thus increment twice per tick. -/
def deliverTicks (st : ProgressState) : ProgressState :=
  st.sys.active.foldl (fun acc _ => intervalTickOnce acc) st

/-- The module invariant: the installed timers are exactly the one tracked by
`progressInterval` (no orphaned interval keeps ticking). -/
def ProgressInv (st : ProgressState) : Prop :=
  st.sys.active = st.progressInterval.toList

/-- What `updateAnalysisProgress` writes to the DOM. -/
structure ProgressDisplay where
  barWidthPct : Int
  percentLabel : String
  promptsLabel : String
deriving DecidableEq, Repr

/-- The function `updateAnalysisProgress` (app.js lines 169-181): clamp the input to
[0,100], set the bar width and the percent label (every call site passes an
integer, so `Math.round(safePercent)` is `safePercent` itself). -/
def updateAnalysisProgress (percent used total : Int) : ProgressDisplay :=
  let safePercent := min (max percent 0) 100
  { barWidthPct := safePercent
    percentLabel := toString safePercent ++ "%"
    promptsLabel := "Prompts " ++ toString used ++ " / " ++ toString total }

/-- JavaScript `a || b` on a possibly absent/null string: the fallback is
used when the field is `undefined`/`null` (`none`) or the empty string. -/
def jsOr (v : Option String) (fallback : String) : String :=
  match v with
  | some s => if s = "" then fallback else s
  | none => fallback

/-- Truthiness of a possibly absent string field (`if (data.error)`). -/
def jsTruthyStr (v : Option String) : Bool :=
  match v with
  | some s => !(s == "")
  | none => false

/-- The `metrics` object of an analyze response; each numeric field may be
absent (or null), modelled by `none`. -/
structure MetricsData where
  brand_share_pct : Option Rat
  avg_rank : Option Rat
  citations : Option Rat
deriving DecidableEq, Repr

/-- An analyze response as far as the metric cards read it:
`data?.brand?.name` and `data?.metrics`. -/
structure AnalysisData where
  brandName : Option String
  metrics : Option MetricsData
deriving DecidableEq, Repr

/-- JavaScript `x.toFixed(1)`: one-decimal fixed formatting.  The digits are
chosen from `⌊10q + 1/2⌋` (nearest, ties away from the smaller value — the
ECMAScript rule), written as the floor division
`(20·num + den) / (2·den)` on the reduced fraction so the kernel can
evaluate it. -/
def toFixed1 (q : Rat) : String :=
  let n := Int.fdiv (20 * q.num + (q.den : Int)) (2 * (q.den : Int))
  (if n < 0 then "-" else "") ++ toString (n.natAbs / 10) ++ "." ++ toString (n.natAbs % 10)

/-- JavaScript `x.toString()` for a number.  The claims only evaluate it at
integral values, where it prints the integer; the shortest-decimal printing
of non-integral doubles is approximated by the rational literal. -/
def jsNumberToString (q : Rat) : String :=
  if q.den = 1 then toString q.num else toString q

/-- The text contents `updateMetricCardsFromAnalysis` writes into the three
scorecards. -/
structure MetricCards where
  mentionsLabel : String
  mentionsSubtitle : String
  mentionsValue : String
  avgRankLabel : String
  avgRankSubtitle : String
  avgRankValue : String
  citationsValue : String
  citationsSubtitle : String
deriving DecidableEq, Repr

/-- The function `updateMetricCardsFromAnalysis` (app.js lines 185-210).  Each metric is
read with `?? 0` through the possibly-missing `metrics` object; the payload
fields are numbers when present, so `Number(raw) || 0` leaves the value
unchanged (NaN does not arise).  Share and rank render via `toFixed(1)`,
citations via `toString()`. -/
def updateMetricCardsFromAnalysis (data : AnalysisData) (fallbackBrandName : String) :
    MetricCards :=
  let brandName := jsOr data.brandName fallbackBrandName
  let mentions := (data.metrics.bind (fun m => m.brand_share_pct)).getD 0
  let avgRank := (data.metrics.bind (fun m => m.avg_rank)).getD 0
  let citations := (data.metrics.bind (fun m => m.citations)).getD 0
  { mentionsLabel := if brandName = "" then "Brand" else brandName
    mentionsSubtitle := if brandName = "" then "brand" else brandName
    mentionsValue := toFixed1 mentions
    avgRankLabel := if brandName = "" then "Brand" else brandName
    avgRankSubtitle := if brandName = "" then "brand" else brandName
    avgRankValue := toFixed1 avgRank
    citationsValue := jsNumberToString citations
    citationsSubtitle := if brandName = "" then "brand" else brandName }

/-- The JSON body of a `POST /brand/lookup/` request (app.js lines 540-543). -/
structure LookupRequest where
  brand_name : String
  brand_description : String
deriving DecidableEq, Repr

/-- A parsed lookup response body; every field may be absent or null. -/
structure LookupData where
  brand_name : Option String
  brand_description : Option String
  brand_url : Option String
  region : Option String
  language : Option String
  initial_topics : Option String
  error : Option String
deriving DecidableEq, Repr

/-- How the `fetch` of the lookup settles: the promise rejects
(`networkError`), or a response arrives with `resp.ok`, `resp.status`, and a
body that parses as JSON (`some data`) or does not (`none`). -/
inductive LookupOutcome where
  | networkError
  | response (ok : Bool) (status : Nat) (body : Option LookupData)
deriving DecidableEq, Repr

/-- The values `goToStep2` writes into the six step-2 inputs on success. -/
structure Step2Populate where
  name : String
  description : String
  url : String
  region : String
  language : String
  topics : String
deriving DecidableEq, Repr

/-- The observable outcome of one `goToStep2` call: the lookup requests it
issued, the error text left visible in the error box (`none` = hidden), and
whether/how it switched to step 2. -/
structure LookupEffects where
  requests : List LookupRequest
  errorMessage : Option String
  step2Shown : Bool
  step2Fields : Option Step2Populate
deriving DecidableEq, Repr

/-- The function `goToStep2` (app.js lines 518-577), on the page as served (all referenced
elements exist).  Reads the name/description from step 1, or from step 2 when
`useRegenerate` is set; an empty trimmed name shows a validation error and
returns before any request.  Otherwise exactly one lookup request is sent and
the outcome is dispatched: rejection and non-JSON bodies show errors, as does
`!resp.ok` or a truthy `data.error`; on success each step-2 field is
populated from the response with `||`-fallbacks (submitted name/description,
empty string for the rest) and step 2 is revealed. -/
def goToStep2 (useRegenerate : Bool) (step1Name step1Desc step2Name step2Desc : String)
    (outcome : LookupOutcome) : LookupEffects :=
  let rawName := if useRegenerate then step2Name else step1Name
  let rawDesc := if useRegenerate then step2Desc else step1Desc
  let brandName := jsTrim rawName
  let brandDesc := rawDesc
  if brandName = "" then
    { requests := [], errorMessage := some "Please enter a brand name.",
      step2Shown := false, step2Fields := none }
  else
    let req : LookupRequest := { brand_name := brandName, brand_description := brandDesc }
    match outcome with
    | .networkError =>
      { requests := [req],
        errorMessage := some "Something went wrong while contacting the server.",
        step2Shown := false, step2Fields := none }
    | .response _ status none =>
      { requests := [req],
        errorMessage := some ("Server returned an invalid response (" ++ toString status ++ ")."),
        step2Shown := false, step2Fields := none }
    | .response ok status (some data) =>
      if !ok || jsTruthyStr data.error then
        { requests := [req],
          errorMessage := some (jsOr data.error ("Backend error: " ++ toString status)),
          step2Shown := false, step2Fields := none }
      else
        { requests := [req], errorMessage := none, step2Shown := true,
          step2Fields := some
            { name := jsOr data.brand_name brandName
              description := jsOr data.brand_description brandDesc
              url := jsOr data.brand_url ""
              region := jsOr data.region ""
              language := jsOr data.language ""
              topics := jsOr data.initial_topics "" } }

/-- The six step-2 input values at the moment Create is clicked. -/
structure Step2Fields where
  name : String
  description : String
  url : String
  region : String
  language : String
  topics : String
deriving DecidableEq, Repr

/-- The JSON body of a `POST /brand/analyze/` request (app.js lines 475-482). -/
structure AnalyzeRequest where
  brand_name : String
  brand_description : String
  brand_url : String
  region : String
  language : String
  initial_topics : String
deriving DecidableEq, Repr

/-- The observable effects of `runBrandAnalysisFromStep2` up to the point the
analyze request is issued (the asynchronous continuation past the `await`
only consumes the response and is not needed by the claims). -/
structure AnalysisEffects where
  analysisBarShown : Bool
  progressStarted : Bool
  requests : List AnalyzeRequest
deriving DecidableEq, Repr

/-- The function `runBrandAnalysisFromStep2` (app.js lines 444-514), synchronous prefix:
all six step-2 fields are read and trimmed; an empty trimmed brand name makes
the whole call a logged no-op, otherwise the status bar is shown, the
progress animation started, and exactly one analyze request issued. -/
def runBrandAnalysisFromStep2 (f : Step2Fields) : AnalysisEffects :=
  let brandName := jsTrim f.name
  if brandName = "" then
    { analysisBarShown := false, progressStarted := false, requests := [] }
  else
    { analysisBarShown := true, progressStarted := true,
      requests := [{ brand_name := brandName
                     brand_description := jsTrim f.description
                     brand_url := jsTrim f.url
                     region := jsTrim f.region
                     language := jsTrim f.language
                     initial_topics := jsTrim f.topics }] }

/-- What one click of the Create button does. -/
structure CreateEffects where
  modalClosed : Bool
  analysisBarShown : Bool
  progressStarted : Bool
  requests : List AnalyzeRequest
deriving DecidableEq, Repr

/-- The Create-button click handler (app.js lines 614-619): it calls
`closeModal()` unconditionally and then `runBrandAnalysisFromStep2()`. -/
def createClick (f : Step2Fields) : CreateEffects :=
  let r := runBrandAnalysisFromStep2 f
  { modalClosed := true, analysisBarShown := r.analysisBarShown,
    progressStarted := r.progressStarted, requests := r.requests }

/-! ## Helper lemmas about the chart pipeline -/

lemma map_label_build (s : List SeriesItem) (b : String) :
    (buildDatasetsFromSeries s b).map (fun d => d.label) =
      ((orderedSeries s b).map (fun x => x.name)).take 10 := by
  unfold buildDatasetsFromSeries
  rw [List.map_map]
  have h1 : ((fun d : Dataset => d.label) ∘
      (fun p : Nat × SeriesItem =>
        ({ label := p.2.name
           data := p.2.values
           borderColor := chartColors.getD (p.1 % chartColors.length) ""
           backgroundColor := chartColors.getD (p.1 % chartColors.length) ""
           tension := 35 / 100
           pointRadius := 3 / 2
           fill := false
           borderWidth := 2 } : Dataset))) =
      (fun x : SeriesItem => x.name) ∘ Prod.snd := rfl
  rw [h1, ← List.map_map, List.enum_map_snd, List.map_take]

lemma map_name_eraseP (s : List SeriesItem) (b : String) :
    (s.eraseP (fun x => x.name == b)).map (fun x => x.name) =
      (s.map (fun x => x.name)).eraseP (fun n => n == b) := by
  induction s with
  | nil => rfl
  | cons a t ih =>
    cases h : (a.name == b) with
    | true => simp [List.eraseP_cons, h]
    | false => simp [List.eraseP_cons, h, ih]

lemma orderedSeries_map_name (s : List SeriesItem) (b : String) :
    (orderedSeries s b).map (fun x => x.name) = orderedNames (s.map (fun x => x.name)) b := by
  unfold orderedSeries orderedNames
  by_cases hb : b = ""
  · simp [hb]
  · simp only [ne_eq, hb, not_false_iff, if_true]
    rw [List.find?_map]
    have hcomp : ((fun n : String => n == b) ∘ fun x : SeriesItem => x.name) =
        (fun x : SeriesItem => x.name == b) := rfl
    rw [hcomp]
    cases h : s.find? (fun x => x.name == b) with
    | none => simp [h]
    | some main => simp [h, map_name_eraseP]

lemma orderedNames_of_ne (names : List String) (b : String) (hb : b ≠ "") :
    orderedNames names b =
      if b ∈ names then b :: names.eraseP (fun n => n == b) else names := by
  unfold orderedNames
  simp only [ne_eq, hb, not_false_iff, if_true]
  cases h : names.find? (fun n => n == b) with
  | none =>
    have hmem : b ∉ names := by
      intro hb'
      have := List.find?_eq_none.mp h b hb'
      simp at this
    simp [hmem]
  | some n =>
    have hn : n = b := by
      have := List.find?_some h
      simpa using this
    have hmem : b ∈ names := hn ▸ List.mem_of_find?_eq_some h
    simp [hmem, hn]

lemma orderedSeries_length (s : List SeriesItem) (b : String) :
    (orderedSeries s b).length = s.length := by
  unfold orderedSeries
  by_cases hb : b = ""
  · simp [hb]
  · simp only [ne_eq, hb, not_false_iff, if_true]
    cases h : s.find? (fun x => x.name == b) with
    | none => rfl
    | some main =>
      have hmem : main ∈ s := List.mem_of_find?_eq_some h
      have hp : (fun x : SeriesItem => x.name == b) main = true := by
        simpa using List.find?_some h
      have hpos : 0 < s.length := List.length_pos.mpr (List.ne_nil_of_mem hmem)
      have herase := @List.length_eraseP_of_mem _ s main (fun x : SeriesItem => x.name == b) hmem hp
      simp only [List.length_cons, herase]
      omega

lemma build_length (s : List SeriesItem) (b : String) :
    (buildDatasetsFromSeries s b).length = min 10 s.length := by
  unfold buildDatasetsFromSeries
  simp [List.length_take, orderedSeries_length]

/-! ## C1 and C4 -/

/-- C1: on array-form input, `buildDatasetsFromSeries` produces the series
labels with the focal brand's series moved first when present (for the
non-empty focal brand name the UI always passes), followed by the remaining
series in source order with the moved one not repeated, truncated to at most
10; in particular `[A, B]` with focal brand `"B"` yields labels `["B", "A"]`,
and more than 10 input series yield exactly 10 datasets with the
focal-brand-first rule preserved. -/
theorem buildDatasetsFromSeries_correct :
    (∀ (series : List SeriesItem) (b : String), b ≠ "" →
      (buildDatasetsFromSeries series b).map (fun d => d.label) =
        specChartLabels (series.map (fun s => s.name)) b)
    ∧ (buildDatasetsFromSeries
        [{ name := "A", values := [1, 2] }, { name := "B", values := [3, 4] }] "B").map
          (fun d => d.label) = ["B", "A"]
    ∧ (∀ (series : List SeriesItem) (b : String), 10 < series.length →
        (buildDatasetsFromSeries series b).length = 10)
    ∧ (∀ (series : List SeriesItem) (b : String), b ≠ "" →
        (∃ s ∈ series, s.name = b) →
        ((buildDatasetsFromSeries series b).head?).map (fun d => d.label) = some b) := by
  refine ⟨?_, ?_, ?_, ?_⟩
  · intro series b hb
    rw [map_label_build, orderedSeries_map_name, orderedNames_of_ne _ _ hb, specChartLabels]
  · decide
  · intro series b hlen
    rw [build_length]
    omega
  · intro series b hb hex
    have hfind : ∃ main, series.find? (fun x => x.name == b) = some main := by
      cases h : series.find? (fun x => x.name == b) with
      | none =>
        obtain ⟨s, hs, hname⟩ := hex
        have := List.find?_eq_none.mp h s hs
        simp [hname] at this
      | some main => exact ⟨main, rfl⟩
    obtain ⟨main, hmain⟩ := hfind
    have hname : main.name = b := by
      have := List.find?_some hmain
      simpa using this
    have hord : orderedSeries series b =
        main :: series.eraseP (fun x => x.name == b) := by
      unfold orderedSeries
      simp [hb, hmain]
    rw [← List.head?_map, map_label_build, hord]
    simp [hname]

/-- Witness for C1 at concrete inputs: an 11-series input produces exactly
10 datasets. -/
theorem buildDatasetsFromSeries_correct_witness :
    (buildDatasetsFromSeries
      [{ name := "S1", values := [] }, { name := "S2", values := [] },
       { name := "S3", values := [] }, { name := "S4", values := [] },
       { name := "S5", values := [] }, { name := "S6", values := [] },
       { name := "S7", values := [] }, { name := "S8", values := [] },
       { name := "S9", values := [] }, { name := "S10", values := [] },
       { name := "S11", values := [] }] "S11").length = 10 :=
  buildDatasetsFromSeries_correct.2.2.1 _ "S11" (by decide)

/-- C4: the dataset label order depends only on the series names, so the
visibility and rank series of one response (which share names and source
order) produce the same label sequence. -/
theorem buildDatasets_order_stable :
    ∀ (vis rank : List SeriesItem) (b : String),
      vis.map (fun s => s.name) = rank.map (fun s => s.name) →
      (buildDatasetsFromSeries vis b).map (fun d => d.label) =
        (buildDatasetsFromSeries rank b).map (fun d => d.label) := by
  intro vis rank b h
  rw [map_label_build, map_label_build, orderedSeries_map_name, orderedSeries_map_name, h]

/-- Witness for C4: same names, different values, same label order. -/
theorem buildDatasets_order_stable_witness :
    (buildDatasetsFromSeries
        [{ name := "A", values := [1] }, { name := "B", values := [2] }] "B").map
        (fun d => d.label) =
      (buildDatasetsFromSeries
        [{ name := "A", values := [5] }, { name := "B", values := [6] }] "B").map
        (fun d => d.label) :=
  buildDatasets_order_stable _ _ "B" (by decide)

/-! ## Helper lemmas about trimming -/

lemma dropTrail_cons (p : Char → Bool) (c : Char) (rest : List Char) :
    dropTrail p (c :: rest) = match dropTrail p rest with
      | [] => if p c then [] else [c]
      | r => c :: r := rfl

lemma dropTrail_head? (p : Char → Bool) (l : List Char) :
    dropTrail p l = [] ∨ (dropTrail p l).head? = l.head? := by
  induction l with
  | nil => exact Or.inl rfl
  | cons c rest ih =>
    cases h : dropTrail p rest with
    | nil =>
      by_cases hc : p c = true
      · left
        simp [dropTrail, h, hc]
      · right
        simp [dropTrail, h, hc]
    | cons d ds =>
      right
      simp [dropTrail, h]

lemma dropTrail_idem (p : Char → Bool) (l : List Char) :
    dropTrail p (dropTrail p l) = dropTrail p l := by
  induction l with
  | nil => rfl
  | cons c rest ih =>
    cases h : dropTrail p rest with
    | nil =>
      by_cases hc : p c = true
      · simp [dropTrail, h, hc]
      · simp [dropTrail, h, hc]
    | cons d ds =>
      have hstep : dropTrail p (c :: rest) = c :: d :: ds := by
        rw [dropTrail_cons, h]
      have hinner : dropTrail p (d :: ds) = d :: ds := by
        rw [← h, ih, h]
      rw [hstep, dropTrail_cons, hinner]

lemma getLast?_dropTrail (p : Char → Bool) (l : List Char) :
    ∀ c, (dropTrail p l).getLast? = some c → p c = false := by
  induction l with
  | nil => intro c hc; simp [dropTrail] at hc
  | cons a rest ih =>
    intro c hc
    cases h : dropTrail p rest with
    | nil =>
      by_cases ha : p a = true
      · simp [dropTrail, h, ha] at hc
      · simp [dropTrail, h, ha] at hc
        simp [hc] at ha
        simp [ha]
    | cons d ds =>
      have hstep : dropTrail p (a :: rest) = a :: d :: ds := by
        simp [dropTrail, h]
      rw [hstep, List.getLast?_cons_cons, ← h] at hc
      exact ih c hc

lemma head?_dropWhile (p : Char → Bool) (l : List Char) :
    ∀ c, (l.dropWhile p).head? = some c → p c = false := by
  induction l with
  | nil => intro c hc; simp at hc
  | cons a rest ih =>
    intro c hc
    by_cases ha : p a = true
    · rw [List.dropWhile_cons, if_pos ha] at hc
      exact ih c hc
    · rw [List.dropWhile_cons, if_neg ha] at hc
      simp at hc
      subst hc
      simpa using ha

lemma dropWhile_of_head?_false (p : Char → Bool) (l : List Char) (c : Char)
    (hc : l.head? = some c) (hp : p c = false) : l.dropWhile p = l := by
  cases l with
  | nil => simp at hc
  | cons a rest =>
    simp at hc
    rw [List.dropWhile_cons, if_neg (by rw [hc]; simp [hp])]

lemma jsTrim_idem (s : String) : jsTrim (jsTrim s) = jsTrim s := by
  have key : ∀ l : List Char,
      dropTrail jsWhitespace
          ((dropTrail jsWhitespace (l.dropWhile jsWhitespace)).dropWhile jsWhitespace) =
        dropTrail jsWhitespace (l.dropWhile jsWhitespace) := by
    intro l
    have hdw : (dropTrail jsWhitespace (l.dropWhile jsWhitespace)).dropWhile jsWhitespace =
        dropTrail jsWhitespace (l.dropWhile jsWhitespace) := by
      cases hT : (dropTrail jsWhitespace (l.dropWhile jsWhitespace)).head? with
      | none =>
        rw [List.head?_eq_none_iff] at hT
        rw [hT]
        rfl
      | some c =>
        rcases dropTrail_head? jsWhitespace (l.dropWhile jsWhitespace) with hnil | hhead
        · rw [hnil] at hT
          simp at hT
        · have hXc : (l.dropWhile jsWhitespace).head? = some c := by
            rw [← hhead]
            exact hT
          exact dropWhile_of_head?_false _ _ c hT (head?_dropWhile jsWhitespace l c hXc)
    rw [hdw, dropTrail_idem]
  exact congrArg String.mk (key s.data)

/-! ## C8 and C10 -/

/-- C8: `parseTopics` splits on newlines, trims each line, and drops empty
results; `"a\n\nb \n"` parses to exactly `["a", "b"]`, and every output
element is a non-empty trimmed string. -/
theorem parseTopics_correct :
    parseTopics (.vStr "a\n\nb \n") = ["a", "b"]
    ∧ (∀ s : String, parseTopics (.vStr s) =
        ((splitNewlines s.data []).map (fun cs => jsTrim ⟨cs⟩)).filter
          (fun t => 0 < t.length))
    ∧ (∀ s : String, ∀ t ∈ parseTopics (.vStr s), t ≠ "" ∧ jsTrim t = t) := by
  refine ⟨by decide, ?_, ?_⟩
  · intro s
    by_cases hs : s = ""
    · subst hs
      decide
    · simp [parseTopics, hs]
  · intro s t ht
    by_cases hs : s = ""
    · subst hs
      simp [parseTopics] at ht
    · simp only [parseTopics, if_neg hs] at ht
      rw [List.mem_filter] at ht
      obtain ⟨hmem, hlen⟩ := ht
      constructor
      · intro hempty
        subst hempty
        simp at hlen
      · rw [List.mem_map] at hmem
        obtain ⟨cs, _, hcs⟩ := hmem
        rw [← hcs, jsTrim_idem]

/-- Witness for C8 at a concrete input with extra whitespace. -/
theorem parseTopics_correct_witness :
    "b" ∈ parseTopics (.vStr "a\n\nb \n") ∧ "b" ≠ "" ∧ jsTrim "b" = "b" :=
  ⟨by decide, parseTopics_correct.2.2 "a\n\nb \n" "b" (by decide)⟩

/-- C10: `parseTopics` maps null, undefined, the empty string, and every
non-string value to the empty list, so the dropdown degrades to the single
"All Topics" sentinel option. -/
theorem parseTopics_total :
    parseTopics .vNull = [] ∧ parseTopics .vUndefined = []
    ∧ parseTopics (.vStr "") = []
    ∧ (∀ v : JsVal, v.isString = false → parseTopics v = [])
    ∧ (∀ v : JsVal, v.isString = false →
        populateTopicDropdown (parseTopics v) = [{ value := "", text := "All Topics" }])
    ∧ populateTopicDropdown (parseTopics (.vStr "")) =
        [{ value := "", text := "All Topics" }] := by
  refine ⟨rfl, rfl, rfl, ?_, ?_, rfl⟩
  · intro v hv
    cases v <;> simp_all [parseTopics, JsVal.isString]
  · intro v hv
    cases v <;> simp_all [parseTopics, populateTopicDropdown, JsVal.isString]

/-- Witness for C10 at concrete non-string values. -/
theorem parseTopics_total_witness :
    parseTopics (.vNum 0) = []
    ∧ populateTopicDropdown (parseTopics (.vBool true)) =
        [{ value := "", text := "All Topics" }] :=
  ⟨parseTopics_total.2.2.2.1 (.vNum 0) (by decide),
   parseTopics_total.2.2.2.2.1 (.vBool true) (by decide)⟩

/-! ## C2, C5: the lookup step -/

/-- C2: `advance()` issues a lookup request exactly when the brand name read
from the active step is non-empty after trimming — then exactly one request
carrying the trimmed name — and for an empty or whitespace-only name it
issues zero requests and shows the validation error. -/
theorem goToStep2_lookupRequests :
    ∀ (ur : Bool) (n1 d1 n2 d2 : String) (outcome : LookupOutcome),
      (jsTrim (if ur then n2 else n1) ≠ "" →
        (goToStep2 ur n1 d1 n2 d2 outcome).requests =
          [{ brand_name := jsTrim (if ur then n2 else n1)
             brand_description := if ur then d2 else d1 }])
      ∧ (jsTrim (if ur then n2 else n1) = "" →
        (goToStep2 ur n1 d1 n2 d2 outcome).requests = []
        ∧ (goToStep2 ur n1 d1 n2 d2 outcome).errorMessage =
            some "Please enter a brand name.") := by
  intro ur n1 d1 n2 d2 outcome
  constructor
  · intro hne
    cases outcome with
    | networkError => simp [goToStep2, hne]
    | response ok status body =>
      cases body with
      | none => simp [goToStep2, hne]
      | some data =>
        cases hguard : (!ok || jsTruthyStr data.error) with
        | true => simp [goToStep2, hne, hguard]
        | false => simp [goToStep2, hne, hguard]
  · intro heq
    simp [goToStep2, heq]

/-- Witness for C2: a padded name issues one trimmed request; a blank name
issues none and shows the error. -/
theorem goToStep2_lookupRequests_witness :
    (goToStep2 false " Acme " "desc" "" "" .networkError).requests =
      [{ brand_name := "Acme", brand_description := "desc" }]
    ∧ (goToStep2 false "   " "desc" "" "" .networkError).requests = []
    ∧ (goToStep2 false "   " "desc" "" "" .networkError).errorMessage =
        some "Please enter a brand name." :=
  ⟨by
    have h := (goToStep2_lookupRequests false " Acme " "desc" "" "" .networkError).1
      (by decide)
    simpa using h,
   (goToStep2_lookupRequests false "   " "desc" "" "" .networkError).2 (by decide) |>.1,
   (goToStep2_lookupRequests false "   " "desc" "" "" .networkError).2 (by decide) |>.2⟩

/-- C5: on a successful lookup response, each step-2 field is populated from
the response when the field is present and non-empty, and falls back to the
step-1 submitted name/description or to the empty string (url, region,
language, topics) when the field is absent, null, or empty. -/
theorem goToStep2_fieldFallbacks :
    ∀ (n1 d1 n2 d2 : String) (ok : Bool) (status : Nat) (data : LookupData),
      jsTrim n1 ≠ "" → ok = true → (data.error = none ∨ data.error = some "") →
      (goToStep2 false n1 d1 n2 d2 (.response ok status (some data))).step2Fields =
        some { name := jsOr data.brand_name (jsTrim n1)
               description := jsOr data.brand_description d1
               url := jsOr data.brand_url ""
               region := jsOr data.region ""
               language := jsOr data.language ""
               topics := jsOr data.initial_topics "" }
      ∧ (∀ (v : Option String) (d : String), (v = none ∨ v = some "") → jsOr v d = d)
      ∧ (∀ (sv d : String), sv ≠ "" → jsOr (some sv) d = sv) := by
  intro n1 d1 n2 d2 ok status data hne hok herr
  refine ⟨?_, ?_, ?_⟩
  · have hguard : (!ok || jsTruthyStr data.error) = false := by
      rcases herr with h | h <;> simp [hok, jsTruthyStr, h]
    simp [goToStep2, hne, hguard]
  · intro v d hv
    rcases hv with h | h <;> simp [jsOr, h]
  · intro sv d hsv
    simp [jsOr, hsv]

/-- Witness for C5: a response carrying only a url populates the name and
description from step 1, the url from the response, and the rest empty. -/
theorem goToStep2_fieldFallbacks_witness :
    (goToStep2 false " Acme " "about" "" ""
        (.response true 200 (some { brand_name := none, brand_description := some ""
                                    brand_url := some "https://acme.example"
                                    region := none, language := none
                                    initial_topics := none, error := none }))).step2Fields =
      some { name := "Acme", description := "about", url := "https://acme.example"
             region := "", language := "", topics := "" } := by
  have h := (goToStep2_fieldFallbacks " Acme " "about" "" "" true 200
      { brand_name := none, brand_description := some ""
        brand_url := some "https://acme.example", region := none, language := none
        initial_topics := none, error := none }
      (by decide) rfl (Or.inl rfl)).1
  simpa using h

/-! ## C3: the Create action -/

/-- Counterexample to C3 as stated: with a whitespace-only step-2 brand name
the Create click is *not* a modal-preserving no-op — the handler closes the
modal unconditionally before `runBrandAnalysisFromStep2` bails out (it does
issue no request and start no progress animation). -/
theorem createClick_counterexample :
    jsTrim "   " = ""
    ∧ (createClick { name := "   ", description := "", url := "", region := ""
                     language := "", topics := "" }).modalClosed = true
    ∧ (createClick { name := "   ", description := "", url := "", region := ""
                     language := "", topics := "" }).requests = []
    ∧ (createClick { name := "   ", description := "", url := "", region := ""
                     language := "", topics := "" }).progressStarted = false := by
  decide

/-- C3 as amended: the Create click always closes the modal; with an empty
or whitespace-only step-2 brand name it is otherwise a silent no-op (no
progress simulator, no analyze request, no status bar), and with a non-empty
name it starts the progress simulator and issues exactly one analyze request
carrying the six trimmed step-2 field values. -/
theorem createClick_amended :
    ∀ f : Step2Fields,
      (createClick f).modalClosed = true
      ∧ (jsTrim f.name = "" →
          (createClick f).requests = []
          ∧ (createClick f).progressStarted = false
          ∧ (createClick f).analysisBarShown = false)
      ∧ (jsTrim f.name ≠ "" →
          (createClick f).progressStarted = true
          ∧ (createClick f).analysisBarShown = true
          ∧ (createClick f).requests =
              [{ brand_name := jsTrim f.name
                 brand_description := jsTrim f.description
                 brand_url := jsTrim f.url
                 region := jsTrim f.region
                 language := jsTrim f.language
                 initial_topics := jsTrim f.topics }]) := by
  intro f
  refine ⟨rfl, ?_, ?_⟩
  · intro h
    simp [createClick, runBrandAnalysisFromStep2, h]
  · intro h
    simp [createClick, runBrandAnalysisFromStep2, h]

/-- Witness for C3's amended statement at concrete field values. -/
theorem createClick_amended_witness :
    (createClick
        { name := " Acme ", description := " d ", url := "u", region := "r",
          language := "l", topics := "t" }).requests =
      [{ brand_name := "Acme", brand_description := "d", brand_url := "u",
         region := "r", language := "l", initial_topics := "t" }] := by
  have h := (createClick_amended
      { name := " Acme ", description := " d ", url := "u", region := "r",
        language := "l", topics := "t" }).2.2 (by decide)
  have h2 := h.2.2
  simpa using h2

/-! ## C6: the progress simulator timers -/

lemma stop_state (st : ProgressState) (h : ProgressInv st) :
    (stopProgressAnimation st).sys.active = []
    ∧ (stopProgressAnimation st).progressInterval = none := by
  unfold ProgressInv at h
  cases hpi : st.progressInterval with
  | none =>
    rw [hpi] at h
    simp [stopProgressAnimation, hpi, h]
  | some id =>
    rw [hpi] at h
    simp [stopProgressAnimation, hpi, clearIntervalSys, h]

lemma start_state (st : ProgressState) (h : ProgressInv st) :
    (startProgressAnimation st).sys.active = [(stopProgressAnimation st).sys.nextId]
    ∧ (startProgressAnimation st).progressInterval =
        some (stopProgressAnimation st).sys.nextId
    ∧ (startProgressAnimation st).visualProgress = 0 := by
  obtain ⟨ha, _⟩ := stop_state st h
  refine ⟨?_, rfl, rfl⟩
  show (stopProgressAnimation st).sys.active ++ [(stopProgressAnimation st).sys.nextId] = _
  rw [ha]
  rfl

lemma start_inv (st : ProgressState) (h : ProgressInv st) :
    ProgressInv (startProgressAnimation st) := by
  obtain ⟨ha, hi, _⟩ := start_state st h
  unfold ProgressInv
  rw [ha, hi]
  rfl

/-- C6: under the module invariant (the installed interval timers are exactly
the one tracked by `progressInterval`), both operations preserve the
invariant, starting the animation twice in succession leaves exactly one
installed timer, and one event-loop tick round after the double start
increments the displayed progress exactly once. -/
theorem progress_single_timer :
    ∀ st : ProgressState, ProgressInv st →
      ProgressInv (startProgressAnimation st)
      ∧ ProgressInv (stopProgressAnimation st)
      ∧ (startProgressAnimation (startProgressAnimation st)).sys.active.length = 1
      ∧ (deliverTicks (startProgressAnimation (startProgressAnimation st))).visualProgress =
          (startProgressAnimation (startProgressAnimation st)).visualProgress + 1 := by
  intro st h
  have h1 := start_inv st h
  have h2 := start_inv _ h1
  obtain ⟨hstopa, hstopi⟩ := stop_state st h
  obtain ⟨ha2, hi2, hv2⟩ := start_state _ h1
  refine ⟨h1, ?_, ?_, ?_⟩
  · unfold ProgressInv
    rw [hstopa, hstopi]
    rfl
  · rw [ha2]
    rfl
  · unfold deliverTicks
    rw [ha2, List.foldl_cons, List.foldl_nil, hv2]
    simp [intervalTickOnce, hv2]

/-- Witness for C6 from the initial page state (no timer installed). -/
theorem progress_single_timer_witness :
    (startProgressAnimation (startProgressAnimation
        { sys := { active := [], nextId := 0 }, progressInterval := none
          visualProgress := 0 })).sys.active.length = 1 :=
  (progress_single_timer
    { sys := { active := [], nextId := 0 }, progressInterval := none
      visualProgress := 0 } rfl).2.2.1

/-! ## C7: progress clamping -/

/-- C7: for every integer percentage input (all call sites pass integers,
including the out-of-range values the claim quantifies over), the rendered
bar width is clamped to [0, 100] and the percent label shows exactly that
clamped value. -/
theorem updateAnalysisProgress_clamped :
    ∀ percent used total : Int,
      0 ≤ (updateAnalysisProgress percent used total).barWidthPct
      ∧ (updateAnalysisProgress percent used total).barWidthPct ≤ 100
      ∧ (updateAnalysisProgress percent used total).percentLabel =
          toString (updateAnalysisProgress percent used total).barWidthPct ++ "%" := by
  intro percent used total
  refine ⟨?_, ?_, rfl⟩
  · exact le_min (le_max_right percent 0) (by norm_num)
  · exact min_le_right _ _

/-! ## C9: scorecard defaults -/

/-- C9: when `brand_share_pct`, `avg_rank`, or `citations` is absent from the
metrics of an analysis response (including when the whole `metrics` object is
missing), the corresponding scorecard renders the default 0, formatted
`"0.0"` for share and average rank and `"0"` for citations. -/
theorem metricCards_defaults :
    ∀ (data : AnalysisData) (fb : String),
      (data.metrics.bind (fun m => m.brand_share_pct) = none →
        (updateMetricCardsFromAnalysis data fb).mentionsValue = "0.0")
      ∧ (data.metrics.bind (fun m => m.avg_rank) = none →
        (updateMetricCardsFromAnalysis data fb).avgRankValue = "0.0")
      ∧ (data.metrics.bind (fun m => m.citations) = none →
        (updateMetricCardsFromAnalysis data fb).citationsValue = "0") := by
  intro data fb
  refine ⟨?_, ?_, ?_⟩
  · intro h
    simp only [updateMetricCardsFromAnalysis, h]
    decide
  · intro h
    simp only [updateMetricCardsFromAnalysis, h]
    decide
  · intro h
    simp only [updateMetricCardsFromAnalysis, h]
    decide

/-- Witness for C9: a response with an entirely missing metrics object. -/
theorem metricCards_defaults_witness :
    (updateMetricCardsFromAnalysis { brandName := some "Acme", metrics := none }
        "Acme").mentionsValue = "0.0"
    ∧ (updateMetricCardsFromAnalysis { brandName := some "Acme", metrics := none }
        "Acme").avgRankValue = "0.0"
    ∧ (updateMetricCardsFromAnalysis { brandName := some "Acme", metrics := none }
        "Acme").citationsValue = "0" :=
  ⟨(metricCards_defaults { brandName := some "Acme", metrics := none } "Acme").1 rfl,
   (metricCards_defaults { brandName := some "Acme", metrics := none } "Acme").2.1 rfl,
   (metricCards_defaults { brandName := some "Acme", metrics := none } "Acme").2.2 rfl⟩

end GeoAI
